import Mathlib

/-!
Verification of the wikisniffer repository (src/wikisniffer.js and the
unnamed standalone script src/unnamed/part_000) against its specification.

The JavaScript is shallowly embedded:
* Strings are Lean `String`s; the character-level operations of the source
  (the sanitizing regex replace, `toLowerCase`, the timestamp replace/split,
  `trim`, `split('\n')`) are modelled as total functions on `List Char`,
  restricted to the ASCII behaviour the source exercises.
* Every awaited browser/filesystem call is an `Event`; a call that can
  reject consults an environment of Booleans (`Env`, `PEnv`, `MainEnv`)
  saying whether that particular await resolves or rejects.  Timer waits
  (`waitForTimeout`) are pure timers and are modelled as always resolving.
* JavaScript exception flow is `Except`: a `.error` escaping a function
  models an exception crossing that function's boundary.  `try`/`catch`
  is a `match` on the `Except` value.  An event is emitted exactly when
  the corresponding call took effect (resolved).
-/

namespace WikiSniffer

/-! ### Character and string layer (from `searchAndCapture`, lines 61-64, 79) -/

/-- Does `c` match the class `[a-z0-9]` of the regex `/[^a-z0-9]/gi`
(case-insensitive, hence ASCII letters of both cases and digits)? -/
def isAlnumCh (c : Char) : Bool :=
  decide (48 ≤ c.toNat ∧ c.toNat ≤ 57) ||
  decide (65 ≤ c.toNat ∧ c.toNat ≤ 90) ||
  decide (97 ≤ c.toNat ∧ c.toNat ≤ 122)

/-- One character of `searchTerm.replace(/[^a-z0-9]/gi, '_')`. -/
def sanitizeCh (c : Char) : Char :=
  if isAlnumCh c then c else '_'

/-- `searchTerm.replace(/[^a-z0-9]/gi, '_').toLowerCase()` (wikisniffer.js
line 61).  After the replace every character is ASCII, where JavaScript
`toLowerCase` agrees with `Char.toLower`. -/
def sanitize (s : String) : String :=
  String.mk ((s.data.map sanitizeCh).map Char.toLower)

/-- One character of `.replace(/[:.]/g, '-')` (wikisniffer.js line 62). -/
def tsReplaceCh (c : Char) : Char :=
  if c = ':' ∨ c = '.' then '-' else c

/-- JavaScript `String.prototype.split(sep)` for a one-character separator,
on code points: `"aTb".split('T') = ["a","b"]`, `"ab".split('T') = ["ab"]`. -/
def splitOnCh (sep : Char) : List Char → List (List Char)
  | [] => [[]]
  | c :: rest =>
    let r := splitOnCh sep rest
    if c = sep then [] :: r
    else
      match r with
      | [] => [[c]]
      | h :: t => (c :: h) :: t

/-- `new Date().toISOString().replace(/[:.]/g, '-').split('T')[0]`
(wikisniffer.js line 62), as a function of the ISO string the `Date`
produced.  For a well-formed ISO string this is the `YYYY-MM-DD` date part. -/
def timestamp (iso : String) : String :=
  String.mk ((splitOnCh 'T' (iso.data.map tsReplaceCh)).headD [])

/-- `path.join(a, b)` for the already-normalized relative joins the source
performs. -/
def pathJoin (a b : String) : String := a ++ "/" ++ b

/-- `OUT_DIR = path.join(process.cwd(), 'snapshots')` (wikisniffer.js line 5),
as a function of the working directory. -/
def outDir (cwd : String) : String := pathJoin cwd "snapshots"

/-- `` `${sanitizedTerm}_${timestamp}.png` `` (wikisniffer.js line 63). -/
def filename (term iso : String) : String :=
  sanitize term ++ "_" ++ timestamp iso ++ ".png"

/-- `path.join(OUT_DIR, filename)` (wikisniffer.js line 64). -/
def filePath (cwd term iso : String) : String :=
  pathJoin (outDir cwd) (filename term iso)

/-- `` `error_${searchTerm.replace(/[^a-z0-9]/gi, '_').toLowerCase()}.png` ``
(wikisniffer.js line 79).  Note: no date stamp. -/
def errorFilename (term : String) : String :=
  "error_" ++ sanitize term ++ ".png"

/-- Full path of the fallback error screenshot (wikisniffer.js line 81). -/
def errorPath (cwd term : String) : String :=
  pathJoin (outDir cwd) (errorFilename term)

/-- Is `c` whitespace removed by JavaScript `String.prototype.trim()`
(restricted to the usual ASCII whitespace)? -/
def isWsCh (c : Char) : Bool :=
  c = ' ' || c = '\t' || c = '\r' || c = '\n' || c = '\x0b' || c = '\x0c'

/-- JavaScript `term.trim()` on code points. -/
def trimChars (l : List Char) : List Char :=
  ((l.dropWhile isWsCh).reverse.dropWhile isWsCh).reverse

/-- `content.split('\n').map(term => term.trim()).filter(term => term.length > 0)`
(wikisniffer.js lines 97-99). -/
def parseTerms (content : String) : List String :=
  (((splitOnCh '\n' content.data).map (fun l => String.mk (trimChars l))).filter
    (fun t => decide (0 < t.length)))

/-- Modelled from the spec's words in section 4.3: the input "split into
lines, trimmed, and blank lines discarded" — kept separate from
`parseTerms` (which is transcribed from the source) so the two can be
compared. -/
def nonblankTrimmedLines (content : String) : List String :=
  (((splitOnCh '\n' content.data).map (fun l => String.mk (trimChars l))).filter
    (fun t => decide (t ≠ "")))

/-! ### Events and per-step environments -/

/-- One observable effect of the script: a browser-automation call, a
filesystem call, or one of the console messages the claims mention. -/
inductive Event where
  | goto (url : String)
  | fill (selector text : String)
  | press (key : String)
  | waitForSelector (selector : String) (timeoutMs : Option Nat)
  | click (selector : String)
  | waitForLoadState (state : String)
  | wheel (dx dy : Nat)
  | waitForTimeout (ms : Nat)
  | screenshot (p : String) (fullPage : Bool)
  | logSearch (term : String)
  | logError (term : String)
  | logErrShotFail
  | launchBrowser
  | newContext
  | newPage
  | accessDir (p : String)
  | mkdirRec (p : String)
  | readFileEv (p : String)
  | logReadError
  | logUsage
  | logFatal
  | logTopError
  | closeInvoked
  | closeBrowser
  deriving DecidableEq, Repr

/-- Which awaits of one `searchAndCapture` attempt resolve (`true`) or
reject (`false`). -/
structure Env where
  gotoOk : Bool
  fillOk : Bool
  pressOk : Bool
  waitSelOk : Bool
  clickOk : Bool
  waitLoadOk : Bool
  wheel1Ok : Bool
  wheel2Ok : Bool
  wheel3Ok : Bool
  shotOk : Bool
  errShotOk : Bool
  deriving DecidableEq, Repr

/-- Run a list of `(resolves?, effect)` steps in order.  `.ok trace` when
all resolve; `.error trace` (the exception, carrying the effects that did
happen) as soon as one rejects. -/
def runStepsE : List (Bool × Event) → Except (List Event) (List Event)
  | [] => Except.ok []
  | s :: rest =>
    if s.1 then
      match runStepsE rest with
      | Except.ok tr => Except.ok (s.2 :: tr)
      | Except.error tr => Except.error (s.2 :: tr)
    else Except.error []

/-- The effects of the `try` body of `searchAndCapture`
(wikisniffer.js lines 35-72), in source order. -/
def captureEvents (cwd term iso : String) : List Event :=
  [ Event.goto "https://www.wikipedia.org",
    Event.fill "input[name=search]" term,
    Event.press "Enter",
    Event.waitForSelector "#mw-content-text a" (some 10000),
    Event.click "#mw-content-text a",
    Event.waitForLoadState "networkidle",
    Event.wheel 0 1500, Event.waitForTimeout 800,
    Event.wheel 0 1500, Event.waitForTimeout 800,
    Event.wheel 0 1000, Event.waitForTimeout 500,
    Event.screenshot (filePath cwd term iso) true ]

/-- The `try` body of `searchAndCapture` paired with whether each await
resolves (timer waits always resolve). -/
def captureSteps (env : Env) (cwd term iso : String) : List (Bool × Event) :=
  [ (env.gotoOk, Event.goto "https://www.wikipedia.org"),
    (env.fillOk, Event.fill "input[name=search]" term),
    (env.pressOk, Event.press "Enter"),
    (env.waitSelOk, Event.waitForSelector "#mw-content-text a" (some 10000)),
    (env.clickOk, Event.click "#mw-content-text a"),
    (env.waitLoadOk, Event.waitForLoadState "networkidle"),
    (env.wheel1Ok, Event.wheel 0 1500), (true, Event.waitForTimeout 800),
    (env.wheel2Ok, Event.wheel 0 1500), (true, Event.waitForTimeout 800),
    (env.wheel3Ok, Event.wheel 0 1000), (true, Event.waitForTimeout 500),
    (env.shotOk, Event.screenshot (filePath cwd term iso) true) ]

/-- All awaits of the `try` body resolve. -/
def captureOk (env : Env) : Bool :=
  env.gotoOk && env.fillOk && env.pressOk && env.waitSelOk && env.clickOk &&
  env.waitLoadOk && env.wheel1Ok && env.wheel2Ok && env.wheel3Ok && env.shotOk

/-- `searchAndCapture` (wikisniffer.js lines 32-91) with explicit exception
flow: the outer `match` is the `catch (error)` block, the inner `match` the
nested `try`/`catch` around the fallback error screenshot.  An `.error`
result would model an exception escaping the function. -/
def searchAndCaptureE (env : Env) (cwd term iso : String) :
    Except (List Event) (List Event × Option String) :=
  match runStepsE (captureSteps env cwd term iso) with
  | Except.ok tr =>
      Except.ok (Event.logSearch term :: tr, some (filePath cwd term iso))
  | Except.error tr =>
      match runStepsE [(env.errShotOk, Event.screenshot (errorPath cwd term) false)] with
      | Except.ok etr =>
          Except.ok (Event.logSearch term :: (tr ++ Event.logError term :: etr), none)
      | Except.error _ =>
          Except.ok (Event.logSearch term :: (tr ++ [Event.logError term, Event.logErrShotFail]), none)

/-- The trace and return value of `searchAndCapture` (it returns the file
path on success and `null` on failure). -/
def searchAndCapture (env : Env) (cwd term iso : String) : List Event × Option String :=
  match searchAndCaptureE env cwd term iso with
  | Except.ok r => r
  | Except.error _ => ([], none)

/-- The paths of the screenshot files a trace wrote. -/
def writtenFiles (tr : List Event) : List String :=
  tr.filterMap fun e =>
    match e with
    | Event.screenshot p _ => some p
    | _ => none

/-- The terms whose processing was started (the `🔍 Searching for` log at
the top of `searchAndCapture`). -/
def logSearchTerms (tr : List Event) : List String :=
  tr.filterMap fun e =>
    match e with
    | Event.logSearch t => some t
    | _ => none

/-- The magnitudes of the scroll gestures of a trace, in order. -/
def wheelMags (tr : List Event) : List Nat :=
  tr.filterMap fun e =>
    match e with
    | Event.wheel _ dy => some dy
    | _ => none

/-! ### Batch runner and `main` (wikisniffer.js lines 93-145 and 156-216) -/

/-- `{ term, success: !!result, filepath: result }` pushed per attempt
(wikisniffer.js line 110); the spec's Capture Result record. -/
structure CaptureResult where
  term : String
  success : Bool
  filepath : Option String
  deriving DecidableEq, Repr

/-- Which awaits of one whole run resolve, plus the filesystem and input
facts the run observes. -/
structure MainEnv where
  launchOk : Bool
  ctxOk : Bool
  pageOk : Bool
  dirPresent : Bool
  mkdirOk : Bool
  inputIsFile : Bool
  readOk : Bool
  content : String
  attempt : Nat → Env
  closeOk : Bool

/-- The `for` loop of `processTermsFromFile` (wikisniffer.js lines 105-117):
one `searchAndCapture` per term in order, pushing a `CaptureResult`, with a
2000 ms pause after every item but the last. -/
def batchLoop (att : Nat → Env) (cwd iso : String) :
    List String → Nat → List Event × List CaptureResult
  | [], _ => ([], [])
  | t :: rest, i =>
    let pr := searchAndCapture (att i) cwd t iso
    let res : CaptureResult := ⟨t, pr.2.isSome, pr.2⟩
    match rest with
    | [] => (pr.1, [res])
    | _ :: _ =>
      let next := batchLoop att cwd iso rest (i + 1)
      (pr.1 ++ Event.waitForTimeout 2000 :: next.1, res :: next.2)

/-- `processTermsFromFile` (wikisniffer.js lines 93-145).  Reads the file,
parses the terms, runs the loop; its own `catch` logs a read failure.  The
summary `console.log`s are pure output and are not traced. -/
def processTermsFromFile (menv : MainEnv) (cwd iso fp : String) : List Event :=
  if menv.readOk then
    Event.readFileEv fp :: (batchLoop menv.attempt cwd iso (parseTerms menv.content) 0).1
  else [Event.logReadError]

/-- `initialize()` (wikisniffer.js lines 14-30): launch, new context, new
page, then ensure the output directory exists by `access` (the `accessDir`
event marks the ensure step being performed) with `mkdir` recursive in the
`catch` when the directory is absent.  Second component: did it complete
(no exception escaped)? -/
def initBrowser (menv : MainEnv) (cwd : String) : List Event × Bool :=
  if menv.launchOk then
    if menv.ctxOk then
      if menv.pageOk then
        if menv.dirPresent then
          ([Event.launchBrowser, Event.newContext, Event.newPage,
            Event.accessDir (outDir cwd)], true)
        else if menv.mkdirOk then
          ([Event.launchBrowser, Event.newContext, Event.newPage,
            Event.accessDir (outDir cwd), Event.mkdirRec (outDir cwd)], true)
        else
          ([Event.launchBrowser, Event.newContext, Event.newPage,
            Event.accessDir (outDir cwd)], false)
      else ([Event.launchBrowser, Event.newContext], false)
    else ([Event.launchBrowser], false)
  else ([], false)

/-- `main()` plus the top-level `main().catch(console.error)`
(wikisniffer.js lines 156-216).  Zero arguments: print usage and return.
Otherwise `try { initialize; file-or-term dispatch } catch { log fatal }
finally { close }`; `close()` calls `browser.close()` only when a browser
was launched; a rejection from `close()` escapes `main` and is caught by
the top-level `.catch`.  Second component: the process exit code. -/
def mainRun (menv : MainEnv) (cwd iso : String) (args : List String) :
    List Event × Nat :=
  match args with
  | [] => ([Event.logUsage], 0)
  | input :: _ =>
    let ini := initBrowser menv cwd
    let bodyTr :=
      if ini.2 then
        if menv.inputIsFile then processTermsFromFile menv cwd iso input
        else (searchAndCapture (menv.attempt 0) cwd input iso).1
      else [Event.logFatal]
    let closeTr :=
      if menv.launchOk then
        if menv.closeOk then [Event.closeInvoked, Event.closeBrowser]
        else [Event.closeInvoked, Event.closeBrowser, Event.logTopError]
      else [Event.closeInvoked]
    (ini.1 ++ bodyTr ++ closeTr, 0)

/-! ### The standalone script `src/unnamed/part_000` -/

/-- Which awaits of the standalone script resolve. -/
structure PEnv where
  launchOk : Bool
  ctxOk : Bool
  pageOk : Bool
  gotoOk : Bool
  fillOk : Bool
  pressOk : Bool
  waitSelOk : Bool
  clickOk : Bool
  wheel1Ok : Bool
  wheel2Ok : Bool
  shotOk : Bool
  closeOk : Bool
  deriving DecidableEq, Repr

/-- The awaited calls of the standalone script's `main` (part_000 lines
6-33), in source order.  There is no `try`/`catch`/`finally` there. -/
def part000Steps (p : PEnv) (cwd : String) : List (Bool × Event) :=
  [ (p.launchOk, Event.launchBrowser),
    (p.ctxOk, Event.newContext),
    (p.pageOk, Event.newPage),
    (p.gotoOk, Event.goto "https://www.wikipedia.org"),
    (p.fillOk, Event.fill "input[name=search]" "Boxing"),
    (p.pressOk, Event.press "Enter"),
    (p.waitSelOk, Event.waitForSelector "#mw-content-text a" none),
    (p.clickOk, Event.click "#mw-content-text a"),
    (p.wheel1Ok, Event.wheel 0 2000), (true, Event.waitForTimeout 1000),
    (p.wheel2Ok, Event.wheel 0 2000), (true, Event.waitForTimeout 1000),
    (p.shotOk, Event.screenshot (pathJoin (outDir cwd) "info.png") true),
    (p.closeOk, Event.closeBrowser) ]

/-- All awaits of the standalone script resolve. -/
def part000Ok (p : PEnv) : Bool :=
  p.launchOk && p.ctxOk && p.pageOk && p.gotoOk && p.fillOk && p.pressOk &&
  p.waitSelOk && p.clickOk && p.wheel1Ok && p.wheel2Ok && p.shotOk && p.closeOk

/-- The standalone script's `main(); ` (part_000 line 35, no `.catch`):
second component `false` means a rejection went unhandled and the process
terminated without the remaining steps. -/
def part000Main (p : PEnv) (cwd : String) : List Event × Bool :=
  match runStepsE (part000Steps p cwd) with
  | Except.ok tr => (tr, true)
  | Except.error tr => (tr, false)

/-! ### Generic facts about `runStepsE` -/

theorem runStepsE_ok_of_all {l : List (Bool × Event)} (h : l.all (fun s => s.1) = true) :
    runStepsE l = Except.ok (l.map Prod.snd) := by
  induction l with
  | nil => rfl
  | cons s rest ih =>
    simp only [List.all_cons, Bool.and_eq_true] at h
    simp only [runStepsE, h.1, if_true, ih h.2, List.map_cons]

theorem runStepsE_ok_elim {l : List (Bool × Event)} {tr : List Event}
    (h : runStepsE l = Except.ok tr) :
    l.all (fun s => s.1) = true ∧ tr = l.map Prod.snd := by
  induction l generalizing tr with
  | nil =>
    simp only [runStepsE] at h
    cases h
    exact ⟨rfl, rfl⟩
  | cons s rest ih =>
    simp only [runStepsE] at h
    by_cases hs : s.1 = true
    · rw [if_pos hs] at h
      cases hr : runStepsE rest with
      | ok tr' =>
        rw [hr] at h
        cases h
        obtain ⟨h1, h2⟩ := ih hr
        simp [hs, h1, h2]
      | error tr' => rw [hr] at h; cases h
    · rw [if_neg hs] at h
      cases h

/-- A rejected step list: not all steps resolved, and the trace misses at
least the final step (it is a sublist of all-but-the-last effects). -/
theorem runStepsE_error_elim {l : List (Bool × Event)} {tr : List Event}
    (h : runStepsE l = Except.error tr) :
    l.all (fun s => s.1) = false ∧ List.Sublist tr ((l.map Prod.snd).dropLast) := by
  induction l generalizing tr with
  | nil => simp only [runStepsE] at h; cases h
  | cons s rest ih =>
    simp only [runStepsE] at h
    by_cases hs : s.1 = true
    · rw [if_pos hs] at h
      cases hr : runStepsE rest with
      | ok tr' => rw [hr] at h; cases h
      | error tr' =>
        rw [hr] at h
        cases h
        obtain ⟨h1, h2⟩ := ih hr
        refine ⟨by simp [h1], ?_⟩
        cases rest with
        | nil => simp only [runStepsE] at hr; cases hr
        | cons r rs =>
          exact List.Sublist.cons₂ s.2 h2
    · rw [if_neg hs] at h
      cases h
      exact ⟨by simp [hs], List.nil_sublist _⟩

theorem captureSteps_map_snd (env : Env) (cwd term iso : String) :
    (captureSteps env cwd term iso).map Prod.snd = captureEvents cwd term iso := rfl

theorem captureSteps_all (env : Env) (cwd term iso : String) :
    (captureSteps env cwd term iso).all (fun s => s.1) = captureOk env := by
  rcases env with ⟨g, f, pr, w, c, lo, w1, w2, w3, s, es⟩
  simp [captureSteps, captureOk, List.all, Bool.and_assoc]

theorem part000Steps_all (p : PEnv) (cwd : String) :
    (part000Steps p cwd).all (fun s => s.1) = part000Ok p := by
  rcases p with ⟨a, b, c, d, e, f, g, h, i, j, k, m⟩
  simp [part000Steps, part000Ok, List.all, Bool.and_assoc]

theorem runStepsE_singleton_true (e : Event) : runStepsE [(true, e)] = Except.ok [e] := rfl

theorem runStepsE_singleton_false (e : Event) : runStepsE [(false, e)] = Except.error [] := rfl

/-- Full characterization of one `searchAndCapture` attempt. -/
theorem searchAndCapture_spec (env : Env) (cwd term iso : String) :
    searchAndCaptureE env cwd term iso = Except.ok (searchAndCapture env cwd term iso)
    ∧ ((captureOk env = true ∧
         searchAndCapture env cwd term iso =
           (Event.logSearch term :: captureEvents cwd term iso, some (filePath cwd term iso)))
      ∨ (captureOk env = false ∧ ∃ l',
          List.Sublist l' ((captureEvents cwd term iso).dropLast) ∧
          ((env.errShotOk = true ∧ searchAndCapture env cwd term iso =
              (Event.logSearch term ::
                (l' ++ [Event.logError term, Event.screenshot (errorPath cwd term) false]), none))
           ∨ (env.errShotOk = false ∧ searchAndCapture env cwd term iso =
              (Event.logSearch term :: (l' ++ [Event.logError term, Event.logErrShotFail]), none))))) := by
  cases hr : runStepsE (captureSteps env cwd term iso) with
  | ok tr =>
    obtain ⟨h1, h2⟩ := runStepsE_ok_elim hr
    subst h2
    refine ⟨by simp [searchAndCapture, searchAndCaptureE, hr], Or.inl ⟨?_, ?_⟩⟩
    · rw [← captureSteps_all env cwd term iso]; exact h1
    · simp [searchAndCapture, searchAndCaptureE, hr, captureSteps_map_snd]
  | error tr =>
    obtain ⟨h1, h2⟩ := runStepsE_error_elim hr
    rw [captureSteps_map_snd] at h2
    have hco : captureOk env = false := by
      rw [← captureSteps_all env cwd term iso]; exact h1
    cases hes : env.errShotOk with
    | true =>
      refine ⟨?_, Or.inr ⟨hco, tr, h2, Or.inl ⟨rfl, ?_⟩⟩⟩ <;>
        simp only [searchAndCapture, searchAndCaptureE, hr, hes, runStepsE_singleton_true]
    | false =>
      refine ⟨?_, Or.inr ⟨hco, tr, h2, Or.inr ⟨rfl, ?_⟩⟩⟩ <;>
        simp only [searchAndCapture, searchAndCaptureE, hr, hes, runStepsE_singleton_false]

theorem filterMap_sub_nil {α β : Type} {f : α → Option β} {l₁ l₂ : List α}
    (h : List.Sublist l₁ l₂) (h2 : l₂.filterMap f = []) : l₁.filterMap f = [] := by
  have hs := List.Sublist.filterMap f h
  rw [h2] at hs
  exact List.sublist_nil.mp hs

theorem writtenFiles_captureEvents (cwd term iso : String) :
    writtenFiles (captureEvents cwd term iso) = [filePath cwd term iso] := rfl

theorem writtenFiles_captureEvents_dropLast (cwd term iso : String) :
    writtenFiles ((captureEvents cwd term iso).dropLast) = [] := rfl

theorem logSearchTerms_captureEvents_dropLast (cwd term iso : String) :
    logSearchTerms ((captureEvents cwd term iso).dropLast) = [] := rfl

theorem wheelMags_captureEvents (cwd term iso : String) :
    wheelMags (captureEvents cwd term iso) = [1500, 1500, 1000] := rfl

theorem logSearchTerms_capture (env : Env) (cwd term iso : String) :
    logSearchTerms (searchAndCapture env cwd term iso).1 = [term] := by
  rcases (searchAndCapture_spec env cwd term iso).2 with ⟨_, htr⟩ | ⟨_, l', hsub, hcase⟩
  · rw [htr]
    rfl
  · have hl' : logSearchTerms l' = [] :=
      filterMap_sub_nil hsub (logSearchTerms_captureEvents_dropLast cwd term iso)
    rcases hcase with ⟨_, htr⟩ | ⟨_, htr⟩ <;> rw [htr]
    · show term :: (logSearchTerms (l' ++ [Event.logError term, Event.screenshot (errorPath cwd term) false])) = [term]
      simp [logSearchTerms, List.filterMap_append] at hl' ⊢
      exact hl'
    · show term :: (logSearchTerms (l' ++ [Event.logError term, Event.logErrShotFail])) = [term]
      simp [logSearchTerms, List.filterMap_append] at hl' ⊢
      exact hl'

theorem writtenFiles_capture_fail (env : Env) (cwd term iso : String)
    (h : captureOk env = false) :
    writtenFiles (searchAndCapture env cwd term iso).1
      = if env.errShotOk then [errorPath cwd term] else [] := by
  rcases (searchAndCapture_spec env cwd term iso).2 with ⟨hco, _⟩ | ⟨_, l', hsub, hcase⟩
  · rw [h] at hco; cases hco
  · have hl' : writtenFiles l' = [] :=
      filterMap_sub_nil hsub (writtenFiles_captureEvents_dropLast cwd term iso)
    rcases hcase with ⟨hes, htr⟩ | ⟨hes, htr⟩ <;> rw [htr, hes] <;>
      simp [writtenFiles, List.filterMap_append] at hl' ⊢ <;> exact hl'

/-- Distinct error-screenshot files on disk after a sequence of attempts for
one term: each attempt appends its written screenshot paths, and writing to
an already-present path overwrites (so the set of paths is deduplicated). -/
def errorFilesAfter (cwd term : String) (runs : List (Env × String)) : List String :=
  ((runs.map (fun r => writtenFiles (searchAndCapture r.1 cwd term r.2).1)).flatten).dedup

theorem dedup_all_eq {l : List String} {a : String} (h : ∀ x ∈ l, x = a) :
    l.dedup.length ≤ 1 ∧ (l.dedup).all (fun p => p == a) = true := by
  have hmem : ∀ x ∈ l.dedup, x = a := fun x hx => h x (List.mem_dedup.mp hx)
  have hnd := l.nodup_dedup
  constructor
  · match hd : l.dedup with
    | [] => simp
    | [x] => simp
    | x :: y :: t =>
      exfalso
      rw [hd] at hnd hmem
      have hx : x = a := hmem x (by simp)
      have hy : y = a := hmem y (by simp)
      rcases List.nodup_cons.mp hnd with ⟨hxm, _⟩
      exact hxm (by rw [hx, ← hy]; exact List.mem_cons_self y t)
  · rw [List.all_eq_true]
    intro x hx
    rw [hmem x hx]
    simp

def envAll : Env := ⟨true, true, true, true, true, true, true, true, true, true, true⟩

def envGotoFail : Env := ⟨false, true, true, true, true, true, true, true, true, true, true⟩

def penvAll : PEnv := ⟨true, true, true, true, true, true, true, true, true, true, true, true⟩

def penvGotoFail : PEnv := ⟨true, true, true, false, true, true, true, true, true, true, true, true⟩

/-- A well-formed `Date.toISOString()` output used for concrete runs. -/
def isoW : String := "2026-10-12T08:30:00.000Z"

/-- Claim C1: for every input term (any string) and any pattern of
resolving/rejecting awaits, `searchAndCapture` never raises past its own
boundary: it yields a result (never `Except.error`), returning the output
file path on success and `null` (`none`) on any failure of steps 1-6, the
error being logged inside the operation. -/
theorem c1_capture_never_raises (env : Env) (cwd term iso : String) :
    searchAndCaptureE env cwd term iso = Except.ok (searchAndCapture env cwd term iso)
    ∧ ((searchAndCapture env cwd term iso).2 = some (filePath cwd term iso)
      ∨ ((searchAndCapture env cwd term iso).2 = none
         ∧ Event.logError term ∈ (searchAndCapture env cwd term iso).1)) := by
  obtain ⟨h1, h2⟩ := searchAndCapture_spec env cwd term iso
  refine ⟨h1, ?_⟩
  rcases h2 with ⟨_, htr⟩ | ⟨_, l', _, hcase⟩
  · left; rw [htr]
  · right
    rcases hcase with ⟨_, htr⟩ | ⟨_, htr⟩ <;> rw [htr] <;> simp

/-- Claim C5: a capture that succeeds returns a path ending in `.png` under
the output directory (and that is the only file it writes); a capture that
fails returns no path, writes at most one file, and any file it writes is
the `error_`-prefixed fallback screenshot. -/
theorem c5_capture_result_paths (env : Env) (cwd term iso : String) :
    ((searchAndCapture env cwd term iso).2
        = some (pathJoin (outDir cwd) ((sanitize term ++ "_" ++ timestamp iso) ++ ".png"))
      ∧ writtenFiles (searchAndCapture env cwd term iso).1
        = [pathJoin (outDir cwd) ((sanitize term ++ "_" ++ timestamp iso) ++ ".png")])
    ∨ ((searchAndCapture env cwd term iso).2 = none
      ∧ (writtenFiles (searchAndCapture env cwd term iso).1).length ≤ 1
      ∧ (writtenFiles (searchAndCapture env cwd term iso).1).all
          (fun p => p == errorPath cwd term) = true) := by
  have hfn : filename term iso = (sanitize term ++ "_" ++ timestamp iso) ++ ".png" := by
    simp [filename, String.append_assoc]
  rcases (searchAndCapture_spec env cwd term iso).2 with ⟨_, htr⟩ | ⟨hco, l', hsub, hcase⟩
  · left
    rw [htr]
    refine ⟨by rw [← hfn]; rfl, ?_⟩
    show writtenFiles (captureEvents cwd term iso) = _
    rw [writtenFiles_captureEvents, ← hfn]
    rfl
  · right
    have hwf := writtenFiles_capture_fail env cwd term iso hco
    have hres : (searchAndCapture env cwd term iso).2 = none := by
      rcases hcase with ⟨_, htr⟩ | ⟨_, htr⟩ <;> rw [htr]
    refine ⟨hres, ?_, ?_⟩ <;> rw [hwf] <;> cases env.errShotOk <;> simp

/-- Counterexample to claim C6 as stated: on the successful capture path the
gesture magnitudes are 1500, 1500, 1000 — not (strictly) decreasing — and
the standalone script's successful path performs two gestures, not three. -/
theorem c6_counterexample :
    wheelMags (searchAndCapture envAll "/w" "Boxing" isoW).1 = [1500, 1500, 1000]
    ∧ ¬ List.Chain' (fun a b => b < a) (wheelMags (searchAndCapture envAll "/w" "Boxing" isoW).1)
    ∧ (part000Main penvAll "/w").2 = true
    ∧ (wheelMags (part000Main penvAll "/w").1).length = 2 := by
  refine ⟨by decide, ?_, by decide, by decide⟩
  rw [show wheelMags (searchAndCapture envAll "/w" "Boxing" isoW).1 = [1500, 1500, 1000] from by decide]
  simp [List.chain'_cons]

/-- Claim C6 as amended: on every successful capture path of
`searchAndCapture` exactly three scroll gestures are performed, each
followed by a short pause, all before the screenshot, with non-increasing
magnitudes 1500, 1500, 1000 (the first two are equal); the standalone
script's successful path performs two gestures of magnitude 2000. -/
theorem c6_amended_scroll_gestures (env : Env) (cwd term iso : String)
    (p : PEnv) (cwd2 : String) :
    (captureOk env = true →
      wheelMags (searchAndCapture env cwd term iso).1 = [1500, 1500, 1000]
      ∧ List.Chain' (fun a b => b ≤ a) (wheelMags (searchAndCapture env cwd term iso).1)
      ∧ ∃ pre,
          (searchAndCapture env cwd term iso).1
            = pre ++ [Event.wheel 0 1500, Event.waitForTimeout 800,
                      Event.wheel 0 1500, Event.waitForTimeout 800,
                      Event.wheel 0 1000, Event.waitForTimeout 500,
                      Event.screenshot (filePath cwd term iso) true]
          ∧ wheelMags pre = [])
    ∧ (part000Ok p = true → wheelMags (part000Main p cwd2).1 = [2000, 2000]) := by
  constructor
  · intro hco
    rcases (searchAndCapture_spec env cwd term iso).2 with ⟨_, htr⟩ | ⟨hconot, _⟩
    · rw [htr]
      refine ⟨rfl, ?_, ?_⟩
      · show List.Chain' (fun a b => b ≤ a) [1500, 1500, 1000]
        simp [List.chain'_cons]
      exact ⟨[Event.logSearch term, Event.goto "https://www.wikipedia.org",
              Event.fill "input[name=search]" term, Event.press "Enter",
              Event.waitForSelector "#mw-content-text a" (some 10000),
              Event.click "#mw-content-text a", Event.waitForLoadState "networkidle"],
             rfl, rfl⟩
    · rw [hco] at hconot; cases hconot
  · intro hp
    have hall : (part000Steps p cwd2).all (fun s => s.1) = true := by
      rw [part000Steps_all]; exact hp
    have hrun := runStepsE_ok_of_all hall
    simp only [part000Main, hrun]
    rfl

/-- Claim C9: sanitization is not injective — `"A b"` and `"a-b"` are
distinct terms with the same sanitized name, so on any one day they are
captured to the identical screenshot path (the later write overwriting the
earlier file). -/
theorem c9_sanitize_not_injective :
    ("A b" : String) ≠ "a-b"
    ∧ sanitize "A b" = sanitize "a-b"
    ∧ ∀ cwd iso, filePath cwd "A b" iso = filePath cwd "a-b" iso := by
  refine ⟨by decide, by decide, fun cwd iso => ?_⟩
  simp only [filePath, filename]
  rw [show sanitize "A b" = sanitize "a-b" from by decide]

/-- Claim C10: the fallback error-screenshot path has no date stamp — for a
fixed term, a failed attempt writes the same file path on any day, so any
number of failed attempts leave at most one error-screenshot file, and that
file is `error_<sanitized term>.png` under the output directory. -/
theorem c10_error_file_no_date (cwd term iso₁ iso₂ : String) (env : Env)
    (runs : List (Env × String))
    (h : captureOk env = false)
    (hruns : runs.all (fun r => !(captureOk r.1)) = true) :
    writtenFiles (searchAndCapture env cwd term iso₁).1
      = writtenFiles (searchAndCapture env cwd term iso₂).1
    ∧ (errorFilesAfter cwd term runs).length ≤ 1
    ∧ (errorFilesAfter cwd term runs).all (fun p => p == errorPath cwd term) = true
    ∧ errorFilename term = "error_" ++ sanitize term ++ ".png" := by
  have hall : ∀ x ∈ ((runs.map
      (fun r => writtenFiles (searchAndCapture r.1 cwd term r.2).1)).flatten),
      x = errorPath cwd term := by
    intro x hx
    rcases List.mem_flatten.mp hx with ⟨s, hs, hxs⟩
    rcases List.mem_map.mp hs with ⟨r, hr, rfl⟩
    have hrf : captureOk r.1 = false := by
      have := List.all_eq_true.mp hruns r hr
      simpa using this
    rw [writtenFiles_capture_fail r.1 cwd term r.2 hrf] at hxs
    revert hxs
    cases r.1.errShotOk <;> simp
  obtain ⟨hlen, hallb⟩ := dedup_all_eq hall
  refine ⟨?_, hlen, hallb, rfl⟩
  rw [writtenFiles_capture_fail env cwd term iso₁ h,
      writtenFiles_capture_fail env cwd term iso₂ h]

def runsW : List (Env × String) := [(envGotoFail, isoW), (envGotoFail, "2027-01-01T00:00:00.000Z")]

theorem c10_error_file_no_date_witness :
    (errorFilesAfter "/w" "Zzz" runsW).length ≤ 1
    ∧ writtenFiles (searchAndCapture envGotoFail "/w" "Zzz" isoW).1
        = writtenFiles (searchAndCapture envGotoFail "/w" "Zzz" "2027-01-01T00:00:00.000Z").1 := by
  have h := c10_error_file_no_date "/w" "Zzz" isoW "2027-01-01T00:00:00.000Z" envGotoFail
    runsW (by decide) (by decide)
  exact ⟨h.2.1, h.1⟩

theorem c6_amended_scroll_gestures_witness :
    wheelMags (searchAndCapture envAll "/w" "Boxing" isoW).1 = [1500, 1500, 1000]
    ∧ wheelMags (part000Main penvAll "/w").1 = [2000, 2000] := by
  have h := c6_amended_scroll_gestures envAll "/w" "Boxing" isoW penvAll "/w"
  exact ⟨(h.1 (by decide)).1, h.2 (by decide)⟩

def isLowerCh (c : Char) : Bool := decide (97 ≤ c.toNat ∧ c.toNat ≤ 122)

def isDigitCh (c : Char) : Bool := decide (48 ≤ c.toNat ∧ c.toNat ≤ 57)

/-- The character class `[a-z0-9_]` of the spec's filename property. -/
def sanOkCh (c : Char) : Bool := isLowerCh c || isDigitCh c || decide (c = '_')

/-- The characters a well-formed ISO date part consists of. -/
def dateCh (c : Char) : Bool := isDigitCh c || decide (c = '-')

/-- The character class `[a-z0-9_-]` of the amended filename property. -/
def stemCh (c : Char) : Bool := sanOkCh c || decide (c = '-')

theorem sanOk_toLower_sanitizeCh (c : Char) :
    sanOkCh (Char.toLower (sanitizeCh c)) = true := by
  by_cases h : isAlnumCh c = true
  · simp only [sanitizeCh, h, if_true]
    simp only [isAlnumCh, Bool.or_eq_true, decide_eq_true_eq] at h
    rcases h with (h | h) | h
    · have hl : Char.toLower c = c := by
        simp only [Char.toLower]
        rw [if_neg (by omega)]
      rw [hl]
      simp only [sanOkCh, isLowerCh, isDigitCh, Bool.or_eq_true, decide_eq_true_eq]
      omega
    · have hl : Char.toLower c = Char.ofNat (c.toNat + 32) := by
        simp only [Char.toLower]
        rw [if_pos (by omega)]
      rw [hl]
      obtain ⟨h1, h2⟩ := h
      generalize hn : c.toNat = n at h1 h2 ⊢
      clear hn
      interval_cases n <;> decide
    · have hl : Char.toLower c = c := by
        simp only [Char.toLower]
        rw [if_neg (by omega)]
      rw [hl]
      simp only [sanOkCh, isLowerCh, isDigitCh, Bool.or_eq_true, decide_eq_true_eq]
      omega
  · simp only [sanitizeCh, h, if_false, Bool.false_eq_true]
    decide

theorem sanitize_chars (term : String) : (sanitize term).data.all sanOkCh = true := by
  show (((term.data.map sanitizeCh).map Char.toLower).all sanOkCh) = true
  rw [List.all_map, List.all_map, List.all_eq_true]
  intro c _
  exact sanOk_toLower_sanitizeCh c

/-- Counterexample to claim C4 as stated: the term `"A b!"` contains
characters outside `[A-Za-z0-9]`, yet the generated filename's
non-extension part `a_b__2026-10-12` contains `-` (from the date stamp),
which is not in `[a-z0-9_]`. -/
theorem c4_counterexample :
    ("A b!".data.any (fun c => !(isAlnumCh c))) = true
    ∧ filename "A b!" isoW = "a_b__2026-10-12" ++ ".png"
    ∧ ("a_b__2026-10-12" : String).data.all sanOkCh = false := by decide

/-- Claim C4 as amended: for every term containing characters outside
`[A-Za-z0-9]` (indeed for every term), the filename is `stem ++ ".png"`
where the stem contains only characters in `[a-z0-9_-]` — the sanitized
term contributes only `[a-z0-9_]` (every non-alphanumeric replaced by an
underscore and letters lower-cased), the hyphens coming solely from the
date stamp. -/
theorem c4_amended_filename_chars (term iso : String)
    (hterm : term.data.any (fun c => !(isAlnumCh c)) = true)
    (hdate : (timestamp iso).data.all dateCh = true) :
    ∃ stem, filename term iso = stem ++ ".png"
      ∧ stem.data.all stemCh = true
      ∧ (sanitize term).data.all sanOkCh = true := by
  refine ⟨sanitize term ++ "_" ++ timestamp iso, by simp [filename, String.append_assoc], ?_,
    sanitize_chars term⟩
  rw [String.append_assoc, String.data_append, String.data_append, List.all_append,
    List.all_append, Bool.and_eq_true, Bool.and_eq_true]
  refine ⟨?_, ?_, ?_⟩
  · have h1 := sanitize_chars term
    rw [List.all_eq_true] at h1 ⊢
    intro c hc
    simp only [stemCh, Bool.or_eq_true]
    exact Or.inl (h1 c hc)
  · decide
  · rw [List.all_eq_true] at hdate ⊢
    intro c hc
    have := hdate c hc
    simp only [dateCh, Bool.or_eq_true] at this
    simp only [stemCh, sanOkCh, Bool.or_eq_true]
    rcases this with h | h
    · exact Or.inl (Or.inl (Or.inr h))
    · exact Or.inr h

theorem c4_amended_filename_chars_witness :
    ("A b!".data.any (fun c => !(isAlnumCh c))) = true
    ∧ ∃ stem, filename "A b!" isoW = stem ++ ".png" ∧ stem.data.all stemCh = true := by
  refine ⟨by decide, ?_⟩
  obtain ⟨stem, h1, h2, _⟩ := c4_amended_filename_chars "A b!" isoW (by decide) (by decide)
  exact ⟨stem, h1, h2⟩

theorem logSearchTerms_append (l1 l2 : List Event) :
    logSearchTerms (l1 ++ l2) = logSearchTerms l1 ++ logSearchTerms l2 :=
  List.filterMap_append l1 l2 _

theorem logSearchTerms_cons_wait (ms : Nat) (l : List Event) :
    logSearchTerms (Event.waitForTimeout ms :: l) = logSearchTerms l := rfl

theorem parseTerms_eq_nonblank (content : String) :
    parseTerms content = nonblankTrimmedLines content := by
  simp only [parseTerms, nonblankTrimmedLines]
  apply List.filter_congr
  intro t _
  have hiff : (0 < t.length) ↔ (t ≠ "") := by
    rw [show t.length = t.data.length from rfl, List.length_pos]
    constructor
    · intro h he
      rw [he] at h
      exact h rfl
    · intro h he
      exact h (String.ext he)
  simp [hiff]

theorem logSearchTerms_batchLoop (att : Nat → Env) (cwd iso : String)
    (terms : List String) (i : Nat) :
    logSearchTerms (batchLoop att cwd iso terms i).1 = terms := by
  induction terms generalizing i with
  | nil => rfl
  | cons t rest ih =>
    cases rest with
    | nil => exact logSearchTerms_capture (att i) cwd t iso
    | cons r rs =>
      show logSearchTerms ((searchAndCapture (att i) cwd t iso).1
        ++ Event.waitForTimeout 2000 :: (batchLoop att cwd iso (r :: rs) (i + 1)).1) = t :: r :: rs
      rw [logSearchTerms_append, logSearchTerms_capture, logSearchTerms_cons_wait, ih]
      rfl

/-- Claim C3: with a readable input file, the sequence of terms the batch
runner processes is exactly the file's nonblank trimmed lines — same count,
same order, duplicates kept, blank lines contributing nothing — and the
source's filter (`length > 0`) agrees with the spec's (`not blank`). -/
theorem c3_batch_processes_nonblank_lines (menv : MainEnv) (cwd iso fp : String)
    (hread : menv.readOk = true) (hne : menv.content ≠ "") :
    logSearchTerms (processTermsFromFile menv cwd iso fp) = nonblankTrimmedLines menv.content
    ∧ (logSearchTerms (processTermsFromFile menv cwd iso fp)).length
        = (nonblankTrimmedLines menv.content).length
    ∧ parseTerms menv.content = nonblankTrimmedLines menv.content := by
  have hp := parseTerms_eq_nonblank menv.content
  have hl : logSearchTerms (processTermsFromFile menv cwd iso fp) = parseTerms menv.content := by
    simp only [processTermsFromFile, hread, if_true]
    show logSearchTerms ((batchLoop menv.attempt cwd iso (parseTerms menv.content) 0).1) = _
    exact logSearchTerms_batchLoop menv.attempt cwd iso (parseTerms menv.content) 0
  exact ⟨hl.trans hp, by rw [hl, hp], hp⟩

def menvW : MainEnv :=
  ⟨true, true, true, true, true, true, true, "a\n\nb", fun _ => envAll, true⟩

theorem c3_batch_processes_nonblank_lines_witness :
    logSearchTerms (processTermsFromFile menvW "/w" isoW "terms.txt") = ["a", "b"] := by
  have h := c3_batch_processes_nonblank_lines menvW "/w" isoW "terms.txt" rfl (by decide)
  rw [h.1]
  decide

def isAccessDirEv (e : Event) : Bool :=
  match e with
  | Event.accessDir _ => true
  | _ => false

def isShotEv (e : Event) : Bool :=
  match e with
  | Event.screenshot _ _ => true
  | _ => false

/-- Every event that is a browser, filesystem or input action (as opposed
to pure console output). -/
def isEffectEv (e : Event) : Bool :=
  match e with
  | Event.goto _ | Event.fill _ _ | Event.press _ | Event.waitForSelector _ _
  | Event.click _ | Event.waitForLoadState _ | Event.wheel _ _
  | Event.waitForTimeout _ | Event.screenshot _ _ | Event.launchBrowser
  | Event.newContext | Event.newPage | Event.accessDir _ | Event.mkdirRec _
  | Event.readFileEv _ | Event.closeBrowser => true
  | _ => false

theorem countP_capture_accessDir (env : Env) (cwd term iso : String) :
    (searchAndCapture env cwd term iso).1.countP isAccessDirEv = 0 := by
  rcases (searchAndCapture_spec env cwd term iso).2 with ⟨_, htr⟩ | ⟨_, l', hsub, hcase⟩
  · rw [htr]; rfl
  · have hl' : l'.countP isAccessDirEv = 0 := by
      have h1 := List.Sublist.countP_le isAccessDirEv hsub
      have h2 : ((captureEvents cwd term iso).dropLast).countP isAccessDirEv = 0 := rfl
      omega
    rcases hcase with ⟨_, htr⟩ | ⟨_, htr⟩ <;> rw [htr] <;>
      simp [List.countP_cons, List.countP_append, hl', isAccessDirEv]

theorem countP_batch_accessDir (att : Nat → Env) (cwd iso : String)
    (terms : List String) (i : Nat) :
    (batchLoop att cwd iso terms i).1.countP isAccessDirEv = 0 := by
  induction terms generalizing i with
  | nil => rfl
  | cons t rest ih =>
    cases rest with
    | nil => exact countP_capture_accessDir (att i) cwd t iso
    | cons r rs =>
      show ((searchAndCapture (att i) cwd t iso).1
        ++ Event.waitForTimeout 2000 :: (batchLoop att cwd iso (r :: rs) (i + 1)).1).countP
          isAccessDirEv = 0
      rw [List.countP_append, List.countP_cons]
      rw [countP_capture_accessDir, ih]
      rfl

theorem countP_ptf_accessDir (menv : MainEnv) (cwd iso fp : String) :
    (processTermsFromFile menv cwd iso fp).countP isAccessDirEv = 0 := by
  by_cases h : menv.readOk = true
  · simp only [processTermsFromFile, h, if_true]
    rw [show (Event.readFileEv fp
        :: (batchLoop menv.attempt cwd iso (parseTerms menv.content) 0).1).countP isAccessDirEv
      = (batchLoop menv.attempt cwd iso (parseTerms menv.content) 0).1.countP isAccessDirEv from by
        rw [List.countP_cons]; rfl]
    exact countP_batch_accessDir menv.attempt cwd iso (parseTerms menv.content) 0
  · simp only [processTermsFromFile, h, if_false]
    rfl

/-- The `finally` block's trace. -/
def closeEvents (menv : MainEnv) : List Event :=
  if menv.launchOk then
    if menv.closeOk then [Event.closeInvoked, Event.closeBrowser]
    else [Event.closeInvoked, Event.closeBrowser, Event.logTopError]
  else [Event.closeInvoked]

theorem mainRun_cons (menv : MainEnv) (cwd iso input : String) (rest : List String) :
    (mainRun menv cwd iso (input :: rest)).1
      = (initBrowser menv cwd).1
        ++ (if (initBrowser menv cwd).2 = true then
              (if menv.inputIsFile = true then processTermsFromFile menv cwd iso input
               else (searchAndCapture (menv.attempt 0) cwd input iso).1)
            else [Event.logFatal])
        ++ closeEvents menv := rfl

theorem countP_close_accessDir (menv : MainEnv) :
    (closeEvents menv).countP isAccessDirEv = 0 := by
  unfold closeEvents
  cases hl : menv.launchOk <;> cases hc : menv.closeOk <;> simp [isAccessDirEv]

theorem countP_body_accessDir (menv : MainEnv) (cwd iso input : String) (b : Bool) :
    ((if b = true then
        (if menv.inputIsFile = true then processTermsFromFile menv cwd iso input
         else (searchAndCapture (menv.attempt 0) cwd input iso).1)
      else [Event.logFatal]) : List Event).countP isAccessDirEv = 0 := by
  cases b
  · rfl
  · simp only [if_true]
    by_cases hf : menv.inputIsFile = true
    · simp only [hf, if_true]
      exact countP_ptf_accessDir menv cwd iso input
    · simp only [hf, if_false]
      exact countP_capture_accessDir (menv.attempt 0) cwd input iso

theorem initBrowser_ok_shape (menv : MainEnv) (cwd : String)
    (h : (initBrowser menv cwd).2 = true) :
    ∃ tail, (initBrowser menv cwd).1
        = [Event.launchBrowser, Event.newContext, Event.newPage,
           Event.accessDir (outDir cwd)] ++ tail
      ∧ tail.countP isShotEv = 0 ∧ tail.countP isAccessDirEv = 0 := by
  revert h
  unfold initBrowser
  cases menv.launchOk <;> cases menv.ctxOk <;> cases menv.pageOk <;>
    cases menv.dirPresent <;> cases menv.mkdirOk <;> intro h <;>
    first
      | exact ⟨[], rfl, rfl, rfl⟩
      | exact ⟨[Event.mkdirRec (outDir cwd)], rfl, rfl, rfl⟩
      | cases h


/-- Claim C8: invoked with zero arguments the program prints the usage text
to standard output and exits with code 0 having performed no action: no
browser launch, no directory access or creation, no file read, no capture. -/
theorem c8_usage_no_action (menv : MainEnv) (cwd iso : String) :
    mainRun menv cwd iso [] = ([Event.logUsage], 0)
    ∧ (mainRun menv cwd iso []).1.countP isEffectEv = 0 := ⟨rfl, rfl⟩

/-- Claim C7: the directory-ensure step of `initialize()` — when
`initialize()` completes the output directory exists; the create is issued
exactly when the ensure step is reached with the directory absent; a
pre-existing directory lets `initialize()` complete with no error and no
create; and in a full run the ensure step happens exactly once, before any
screenshot. -/
theorem c7_ensure_output_dir (menv : MainEnv) (cwd iso input : String) (rest : List String) :
    ((initBrowser menv cwd).2 = true → (menv.dirPresent || menv.mkdirOk) = true)
    ∧ (Event.mkdirRec (outDir cwd) ∈ (initBrowser menv cwd).1
        ↔ (menv.launchOk && menv.ctxOk && menv.pageOk && !menv.dirPresent && menv.mkdirOk) = true)
    ∧ ((menv.launchOk && menv.ctxOk && menv.pageOk && menv.dirPresent) = true →
        (initBrowser menv cwd).2 = true
        ∧ Event.mkdirRec (outDir cwd) ∉ (initBrowser menv cwd).1)
    ∧ ((initBrowser menv cwd).2 = true →
        (mainRun menv cwd iso (input :: rest)).1.countP isAccessDirEv = 1
        ∧ ∃ l₁ l₂, (mainRun menv cwd iso (input :: rest)).1
            = l₁ ++ Event.accessDir (outDir cwd) :: l₂ ∧ l₁.countP isShotEv = 0) := by
  refine ⟨?_, ?_, ?_, ?_⟩
  · unfold initBrowser
    cases menv.launchOk <;> cases menv.ctxOk <;> cases menv.pageOk <;>
      cases menv.dirPresent <;> cases menv.mkdirOk <;> intro h <;>
      first
        | rfl
        | cases h
  · unfold initBrowser
    cases menv.launchOk <;> cases menv.ctxOk <;> cases menv.pageOk <;>
      cases menv.dirPresent <;> cases menv.mkdirOk <;> simp
  · intro h
    simp only [Bool.and_eq_true] at h
    obtain ⟨⟨⟨hl, hc⟩, hp⟩, hd⟩ := h
    unfold initBrowser
    rw [if_pos hl, if_pos hc, if_pos hp, if_pos hd]
    exact ⟨rfl, by simp⟩
  · intro h
    obtain ⟨tail, hsh, hshot0, hacc0⟩ := initBrowser_ok_shape menv cwd h
    constructor
    · rw [mainRun_cons, List.countP_append, List.countP_append,
        countP_body_accessDir, countP_close_accessDir, hsh, List.countP_append]
      have h4 : ([Event.launchBrowser, Event.newContext, Event.newPage,
        Event.accessDir (outDir cwd)]).countP isAccessDirEv = 1 := rfl
      omega
    · refine ⟨[Event.launchBrowser, Event.newContext, Event.newPage],
        tail ++ (if (initBrowser menv cwd).2 = true then
              (if menv.inputIsFile = true then processTermsFromFile menv cwd iso input
               else (searchAndCapture (menv.attempt 0) cwd input iso).1)
            else [Event.logFatal]) ++ closeEvents menv, ?_, rfl⟩
      rw [mainRun_cons, hsh]
      simp [List.append_assoc]

/-- Counterexample to claim C2 as stated: in the standalone script, with the
browser launched and the first navigation rejecting, the execution
terminates abnormally (the rejection is unhandled) without ever calling
`browser.close()` — an exit path that is not externally interrupted yet
skips teardown. -/
theorem c2_counterexample :
    (part000Main penvGotoFail "/w").2 = false
    ∧ Event.launchBrowser ∈ (part000Main penvGotoFail "/w").1
    ∧ Event.closeBrowser ∉ (part000Main penvGotoFail "/w").1 := by decide

/-- Claim C2 as amended: in wikisniffer.js every run (any argument, any
failure pattern) reaches the `finally` teardown — `close()` is always
invoked, and the launched browser's `close` is called exactly when a
browser was launched; the standalone script, by contrast, calls
`browser.close()` exactly when every one of its steps resolved. -/
theorem c2_amended_teardown (menv : MainEnv) (cwd iso input : String)
    (rest : List String) (p : PEnv) (cwd2 : String) :
    Event.closeInvoked ∈ (mainRun menv cwd iso (input :: rest)).1
    ∧ (Event.closeBrowser ∈ (mainRun menv cwd iso (input :: rest)).1 ↔ menv.launchOk = true)
    ∧ (Event.closeBrowser ∈ (part000Main p cwd2).1 ↔ part000Ok p = true) := by
  refine ⟨?_, ⟨?_, ?_⟩, ⟨?_, ?_⟩⟩
  · rw [mainRun_cons]
    refine List.mem_append.mpr (Or.inr ?_)
    unfold closeEvents
    by_cases hl : menv.launchOk = true <;> by_cases hc : menv.closeOk = true <;>
      simp [hl, hc]
  · intro hmem
    by_cases hl : menv.launchOk = true
    · exact hl
    · exfalso
      rw [mainRun_cons] at hmem
      have h0 : initBrowser menv cwd = ([], false) := by
        unfold initBrowser
        rw [if_neg hl]
      rw [h0] at hmem
      simp only [closeEvents, if_neg hl] at hmem
      simp at hmem
  · intro hl
    rw [mainRun_cons]
    refine List.mem_append.mpr (Or.inr ?_)
    unfold closeEvents
    rw [if_pos hl]
    by_cases hc : menv.closeOk = true <;> simp [hc]
  · intro hmem
    cases hr : runStepsE (part000Steps p cwd2) with
    | ok tr =>
      obtain ⟨hall, _⟩ := runStepsE_ok_elim hr
      rw [part000Steps_all] at hall
      exact hall
    | error tr =>
      exfalso
      simp only [part000Main, hr] at hmem
      obtain ⟨_, hsub⟩ := runStepsE_error_elim hr
      have hin : Event.closeBrowser ∈ ((part000Steps p cwd2).map Prod.snd).dropLast :=
        hsub.subset hmem
      simp [part000Steps] at hin
  · intro hp
    have hall : (part000Steps p cwd2).all (fun s => s.1) = true := by
      rw [part000Steps_all]; exact hp
    have hrun := runStepsE_ok_of_all hall
    simp only [part000Main, hrun]
    simp [part000Steps]

theorem c1_capture_never_raises_witness :
    searchAndCaptureE envGotoFail "/w" "Boxing" isoW
      = Except.ok (searchAndCapture envGotoFail "/w" "Boxing" isoW)
    ∧ (searchAndCapture envGotoFail "/w" "Boxing" isoW).2 = none :=
  ⟨(c1_capture_never_raises envGotoFail "/w" "Boxing" isoW).1, by decide⟩

theorem c2_amended_teardown_witness :
    Event.closeInvoked ∈ (mainRun menvW "/w" isoW ["terms.txt"]).1 :=
  (c2_amended_teardown menvW "/w" isoW "terms.txt" [] penvAll "/w").1

theorem c5_capture_result_paths_witness :
    (searchAndCapture envAll "/w" "Boxing" isoW).2
      = some (pathJoin (outDir "/w") ((sanitize "Boxing" ++ "_" ++ timestamp isoW) ++ ".png")) := by
  rcases c5_capture_result_paths envAll "/w" "Boxing" isoW with ⟨h1, _⟩ | ⟨h1, _⟩
  · exact h1
  · exact absurd h1 (by decide)

theorem c7_ensure_output_dir_witness :
    (initBrowser menvW "/w").2 = true
    ∧ (mainRun menvW "/w" isoW ["terms.txt"]).1.countP isAccessDirEv = 1 := by
  have h := c7_ensure_output_dir menvW "/w" isoW "terms.txt" []
  have hinit : (initBrowser menvW "/w").2 = true := by decide
  exact ⟨hinit, (h.2.2.2 hinit).1⟩

theorem c8_usage_no_action_witness :
    mainRun menvW "/w" isoW [] = ([Event.logUsage], 0) :=
  (c8_usage_no_action menvW "/w" isoW).1

theorem c9_sanitize_not_injective_witness :
    filePath "/w" "A b" isoW = filePath "/w" "a-b" isoW :=
  c9_sanitize_not_injective.2.2 "/w" isoW

end WikiSniffer
